import Mathlib

/-!
Verification of the bootstrap message codec (`src/bootstrap/src/messages.rs`).

Bytes are modelled as `Nat` values (well-formedness predicates record the
`u8` range where it matters), buffers as `List Nat`, and fallible Rust
functions as `Except ModelsError`.  The message-level encoder
`BootstrapMessage.to_bytes_compact` and decoder
`BootstrapMessage.from_bytes_compact` are transcribed from the source.
The nested collaborator codecs (varint integers, signatures, timestamps,
peer lists, consensus-graph snapshots) are declared in other crates that
are not part of this repository snapshot; they are modelled from the
spec's wire-format contract (spec sections 4.1, 6) as indicated on each
definition.
-/

/-- Error type standing for `ModelsError` of the `models` crate: the decoder
only ever constructs `DeserializeError`; `SerializeError` covers encode-side
limit failures of nested codecs. -/
inductive ModelsError where
  | DeserializeError (msg : String)
  | SerializeError (msg : String)
deriving DecidableEq, Repr

/-- `BOOTSTRAP_RANDOMNES_SIZE_BYTES` from the source: 32. -/
def BOOTSTRAP_RANDOMNES_SIZE_BYTES : Nat := 32

/-- Modelled from the spec: the signature algorithm's fixed output length
(`crypto::signature::SIGNATURE_SIZE_BYTES`, not part of this snapshot);
the concrete value 64 matches a compact secp256k1 signature, and no claim
depends on the particular number, only on its being fixed. -/
def SIGNATURE_SIZE_BYTES : Nat := 64

/-- `SerializationContext`: the flat record of resource limits (spec section 3). -/
structure SerializationContext where
  max_block_size : Nat
  max_block_operations : Nat
  parent_count : Nat
  max_peer_list_length : Nat
  max_message_size : Nat
  max_bootstrap_blocks : Nat
  max_bootstrap_cliques : Nat
  max_bootstrap_deps : Nat
  max_bootstrap_children : Nat
  max_ask_blocks_per_message : Nat
  max_operations_per_message : Nat
  max_bootstrap_message_size : Nat
deriving DecidableEq, Repr

/-- Modelled from the spec: the varint scheme of section 4.1 ("smaller values
take fewer bytes"), base-128 with a continuation bit, as used by
`SerializeVarInt::to_varint_bytes` of the `models` crate (absent from this
snapshot). -/
def toVarintBytes (n : Nat) : List Nat :=
  if _h : n < 128 then [n] else (n % 128 + 128) :: toVarintBytes (n / 128)
decreasing_by exact Nat.div_lt_self (by omega) (by omega)

/-- Modelled from the spec: varint decoding, returning the value and the
number of bytes consumed; a truncated varint (buffer exhausted before a byte
without the continuation bit) is a failure, never an out-of-bounds read
(`DeserializeVarInt::from_varint_bytes`, absent from this snapshot; the
overlong-encoding check is immaterial here because every consumer of a
decoded varint range-checks the value). -/
def fromVarintBytes : List Nat → Except ModelsError (Nat × Nat)
  | [] => .error (.DeserializeError "truncated varint")
  | b :: rest =>
    if b < 128 then .ok (b, 1)
    else
      match fromVarintBytes rest with
      | .ok (v, d) => .ok (b - 128 + 128 * v, d + 1)
      | .error e => .error e

/-- Modelled from the spec: `models::array_from_slice`, which copies the first
`k` bytes of the buffer into a fixed-size array and fails when fewer than `k`
bytes are available (spec: fixed-size raw bytes, `TruncatedBuffer` on
shortfall). -/
def array_from_slice (k : Nat) (buf : List Nat) : Except ModelsError (List Nat) :=
  if k ≤ buf.length then .ok (buf.take k)
  else .error (.DeserializeError "array slice buffer too small")

/-- Signatures are opaque fixed-size raw bytes (spec section 6 item 2). -/
structure Signature where
  bytes : List Nat
deriving DecidableEq, Repr

/-- Modelled from the spec: `Signature::to_bytes` exposes the fixed-size raw
bytes. -/
def Signature.to_bytes (s : Signature) : List Nat := s.bytes

/-- Modelled from the spec: `Signature::from_bytes` parses a fixed-size byte
array; malformed signature bytes must surface as an error, never a panic
(spec section 6); the only malformation expressible at this level is a wrong
length. -/
def Signature.from_bytes (b : List Nat) : Except ModelsError Signature :=
  if b.length = SIGNATURE_SIZE_BYTES then .ok ⟨b⟩
  else .error (.DeserializeError "signature parsing failed")

/-- Modelled from the spec: `UTime::to_bytes_compact` — the server timestamp
via its own compact codec; integers use the varint scheme (spec section 6). -/
def UTime.to_bytes_compact (t : Nat) (_context : SerializationContext) :
    Except ModelsError (List Nat) :=
  .ok (toVarintBytes t)

/-- Modelled from the spec: `UTime::from_bytes_compact`. -/
def UTime.from_bytes_compact (buffer : List Nat) (_context : SerializationContext) :
    Except ModelsError (Nat × Nat) :=
  fromVarintBytes buffer

/-- Modelled from the spec: a peer-address entry of the peer list, an
opaque integer address encoded with the varint scheme (spec section 6:
"all integers as the varint scheme unless noted"). The peer list itself is
`BootstrapPeers`, a list of such entries. -/
def BootstrapPeers.entriesToBytes : List Nat → List Nat
  | [] => []
  | p :: ps => toVarintBytes p ++ BootstrapPeers.entriesToBytes ps

/-- Modelled from the spec: decode `n` peer entries in sequence, accumulating
the number of bytes consumed; any entry failure aborts the whole list. -/
def BootstrapPeers.entriesFromBytes : Nat → List Nat → Except ModelsError (List Nat × Nat)
  | 0, _ => .ok ([], 0)
  | n + 1, buf =>
    match fromVarintBytes buf with
    | .error e => .error e
    | .ok (p, d) =>
      match BootstrapPeers.entriesFromBytes n (buf.drop d) with
      | .error e => .error e
      | .ok (ps, d2) => .ok (p :: ps, d + d2)

/-- Modelled from the spec: `BootstrapPeers::to_bytes_compact` — the peer
list via its own compact codec, a varint count followed by the entries,
bounded by `max_peer_list_length` (spec section 6 item 3). -/
def BootstrapPeers.to_bytes_compact (peers : List Nat) (context : SerializationContext) :
    Except ModelsError (List Nat) :=
  if peers.length ≤ context.max_peer_list_length then
    .ok (toVarintBytes peers.length ++ BootstrapPeers.entriesToBytes peers)
  else .error (.SerializeError "too many peers")

/-- Modelled from the spec: `BootstrapPeers::from_bytes_compact` — reads the
varint count, checks it against `max_peer_list_length` before sizing anything
(spec section 4.1), then reads that many entries. -/
def BootstrapPeers.from_bytes_compact (buffer : List Nat) (context : SerializationContext) :
    Except ModelsError (List Nat × Nat) :=
  match fromVarintBytes buffer with
  | .error e => .error e
  | .ok (n, d) =>
    if n ≤ context.max_peer_list_length then
      match BootstrapPeers.entriesFromBytes n (buffer.drop d) with
      | .error e => .error e
      | .ok (ps, d2) => .ok (ps, d + d2)
    else .error (.DeserializeError "peer list too long")

/-- Modelled from the spec: the consensus graph snapshot
(`consensus::BootsrapableGraph`) is an external type consumed opaquely
through its compact codec (spec section 3); it is modelled as its payload
bytes. -/
structure BootsrapableGraph where
  bytes : List Nat
deriving DecidableEq, Repr

/-- Modelled from the spec: `BootsrapableGraph::to_bytes_compact` — the graph
snapshot via its own compact codec, bounded by the bootstrap-size limits of
the context; modelled as a varint length followed by the payload bytes,
bounded by `max_bootstrap_message_size`. -/
def BootsrapableGraph.to_bytes_compact (g : BootsrapableGraph)
    (context : SerializationContext) : Except ModelsError (List Nat) :=
  if g.bytes.length ≤ context.max_bootstrap_message_size then
    .ok (toVarintBytes g.bytes.length ++ g.bytes)
  else .error (.SerializeError "graph too large")

/-- Modelled from the spec: `BootsrapableGraph::from_bytes_compact` — reads
the varint length, checks it against the context bound before allocating,
then takes exactly that many raw bytes. -/
def BootsrapableGraph.from_bytes_compact (buffer : List Nat)
    (context : SerializationContext) : Except ModelsError (BootsrapableGraph × Nat) :=
  match fromVarintBytes buffer with
  | .error e => .error e
  | .ok (n, d) =>
    if n ≤ context.max_bootstrap_message_size then
      match array_from_slice n (buffer.drop d) with
      | .error e => .error e
      | .ok payload => .ok (⟨payload⟩, d + n)
    else .error (.DeserializeError "graph too large")

/-- `BootstrapMessage` (source lines 17-44): the four handshake variants. -/
inductive BootstrapMessage where
  | BootstrapInitiation (random_bytes : List Nat)
  | BootstrapTime (server_time : Nat) (signature : Signature)
  | BootstrapPeers (peers : List Nat) (signature : Signature)
  | ConsensusState (graph : BootsrapableGraph) (signature : Signature)
deriving DecidableEq, Repr

/-- `MessageTypeId` (source lines 46-53). -/
inductive MessageTypeId where
  | BootstrapInitiation
  | BootstrapTime
  | Peers
  | ConsensusState
deriving DecidableEq, Repr

/-- The `u32` wire value of each `MessageTypeId` (the `repr(u32)` constants
`IntoPrimitive` exposes: 0, 1, 2, 3). -/
def MessageTypeId.toU32 : MessageTypeId → Nat
  | .BootstrapInitiation => 0
  | .BootstrapTime => 1
  | .Peers => 2
  | .ConsensusState => 3

/-- The `TryFromPrimitive` conversion used by `from_bytes_compact`, with the
error mapped exactly as in the source (line 96-98). -/
def MessageTypeId.try_from (n : Nat) : Except ModelsError MessageTypeId :=
  match n with
  | 0 => .ok .BootstrapInitiation
  | 1 => .ok .BootstrapTime
  | 2 => .ok .Peers
  | 3 => .ok .ConsensusState
  | _ => .error (.DeserializeError "invalid message type ID")

/-- `BootstrapMessage::to_bytes_compact` (source lines 55-84), transcribed
branch for branch: the tag varint, then for the signed variants the raw
signature bytes, then the payload via its own codec. -/
def BootstrapMessage.to_bytes_compact (m : BootstrapMessage)
    (context : SerializationContext) : Except ModelsError (List Nat) :=
  match m with
  | .BootstrapInitiation random_bytes =>
    .ok (toVarintBytes MessageTypeId.BootstrapInitiation.toU32 ++ random_bytes)
  | .BootstrapTime server_time signature =>
    match UTime.to_bytes_compact server_time context with
    | .error e => .error e
    | .ok tb =>
      .ok (toVarintBytes MessageTypeId.BootstrapTime.toU32 ++ signature.to_bytes ++ tb)
  | .BootstrapPeers peers signature =>
    match BootstrapPeers.to_bytes_compact peers context with
    | .error e => .error e
    | .ok pb =>
      .ok (toVarintBytes MessageTypeId.Peers.toU32 ++ signature.to_bytes ++ pb)
  | .ConsensusState graph signature =>
    match BootsrapableGraph.to_bytes_compact graph context with
    | .error e => .error e
    | .ok gb =>
      .ok (toVarintBytes MessageTypeId.ConsensusState.toU32 ++ signature.to_bytes ++ gb)

/-- `BootstrapMessage::from_bytes_compact` (source lines 86-140), transcribed
branch for branch: varint tag, `try_into` dispatch, then per variant the
fixed-size reads and nested codecs with a running cursor. -/
def BootstrapMessage.from_bytes_compact (buffer : List Nat)
    (context : SerializationContext) : Except ModelsError (BootstrapMessage × Nat) :=
  match fromVarintBytes buffer with
  | .error e => .error e
  | .ok (type_id_raw, delta) =>
    match MessageTypeId.try_from type_id_raw with
    | .error e => .error e
    | .ok .BootstrapInitiation =>
      match array_from_slice BOOTSTRAP_RANDOMNES_SIZE_BYTES (buffer.drop delta) with
      | .error e => .error e
      | .ok random_bytes =>
        .ok (.BootstrapInitiation random_bytes, delta + BOOTSTRAP_RANDOMNES_SIZE_BYTES)
    | .ok .BootstrapTime =>
      match array_from_slice SIGNATURE_SIZE_BYTES (buffer.drop delta) with
      | .error e => .error e
      | .ok sig_bytes =>
        match Signature.from_bytes sig_bytes with
        | .error e => .error e
        | .ok signature =>
          match UTime.from_bytes_compact (buffer.drop (delta + SIGNATURE_SIZE_BYTES)) context with
          | .error e => .error e
          | .ok (server_time, d) =>
            .ok (.BootstrapTime server_time signature, delta + SIGNATURE_SIZE_BYTES + d)
    | .ok .Peers =>
      match array_from_slice SIGNATURE_SIZE_BYTES (buffer.drop delta) with
      | .error e => .error e
      | .ok sig_bytes =>
        match Signature.from_bytes sig_bytes with
        | .error e => .error e
        | .ok signature =>
          match BootstrapPeers.from_bytes_compact (buffer.drop (delta + SIGNATURE_SIZE_BYTES)) context with
          | .error e => .error e
          | .ok (peers, d) =>
            .ok (.BootstrapPeers peers signature, delta + SIGNATURE_SIZE_BYTES + d)
    | .ok .ConsensusState =>
      match array_from_slice SIGNATURE_SIZE_BYTES (buffer.drop delta) with
      | .error e => .error e
      | .ok sig_bytes =>
        match Signature.from_bytes sig_bytes with
        | .error e => .error e
        | .ok signature =>
          match BootsrapableGraph.from_bytes_compact (buffer.drop (delta + SIGNATURE_SIZE_BYTES)) context with
          | .error e => .error e
          | .ok (graph, d) =>
            .ok (.ConsensusState graph signature, delta + SIGNATURE_SIZE_BYTES + d)

/-- Well-formedness of a signature value: constructible in Rust means exactly
`SIGNATURE_SIZE_BYTES` bytes, each a `u8`. -/
def Signature.wf (s : Signature) : Prop :=
  s.bytes.length = SIGNATURE_SIZE_BYTES ∧ ∀ b ∈ s.bytes, b < 256

instance (s : Signature) : Decidable s.wf := by
  unfold Signature.wf; infer_instance

/-- Well-formedness of a message: field shapes a constructible Rust value has
by typing (`[u8; 32]` random bytes, a real signature, a `u64` time, `u32`
peer addresses, `u8` graph payload bytes). -/
def BootstrapMessage.wf : BootstrapMessage → Prop
  | .BootstrapInitiation random_bytes =>
    random_bytes.length = BOOTSTRAP_RANDOMNES_SIZE_BYTES ∧ ∀ b ∈ random_bytes, b < 256
  | .BootstrapTime server_time signature => signature.wf ∧ server_time < 2 ^ 64
  | .BootstrapPeers peers signature => signature.wf ∧ ∀ p ∈ peers, p < 2 ^ 32
  | .ConsensusState graph signature => signature.wf ∧ ∀ b ∈ graph.bytes, b < 256

instance (m : BootstrapMessage) : Decidable m.wf := by
  unfold BootstrapMessage.wf; cases m <;> infer_instance

/-- The context limits a message must stay within for its encoding to be
defined (spec section 8, round-trip precondition). -/
def BootstrapMessage.withinLimits : BootstrapMessage → SerializationContext → Prop
  | .BootstrapPeers peers _, context => peers.length ≤ context.max_peer_list_length
  | .ConsensusState graph _, context => graph.bytes.length ≤ context.max_bootstrap_message_size
  | _, _ => True

instance (m : BootstrapMessage) (c : SerializationContext) : Decidable (m.withinLimits c) := by
  unfold BootstrapMessage.withinLimits; cases m <;> infer_instance

/-- The tag each `to_bytes_compact` branch writes (source lines 59-81: the
`u32::from(MessageTypeId::...)` of the matching variant). -/
def BootstrapMessage.type_id : BootstrapMessage → MessageTypeId
  | .BootstrapInitiation _ => .BootstrapInitiation
  | .BootstrapTime _ _ => .BootstrapTime
  | .BootstrapPeers _ _ => .Peers
  | .ConsensusState _ _ => .ConsensusState

/-- The concrete limit bundle used by the repository's own round-trip test
(`test_message_serialize_compact`). -/
def testContext : SerializationContext where
  max_block_size := 1048576
  max_block_operations := 1024
  parent_count := 2
  max_peer_list_length := 128
  max_message_size := 3145728
  max_bootstrap_blocks := 100
  max_bootstrap_cliques := 100
  max_bootstrap_deps := 100
  max_bootstrap_children := 100
  max_ask_blocks_per_message := 10
  max_operations_per_message := 1024
  max_bootstrap_message_size := 100000000

/-! ## Varint lemmas -/

/-- Decoding a varint encoding followed by any suffix recovers the value and
consumes exactly the encoding's length. -/
theorem varint_decode_encode (n : Nat) (rest : List Nat) :
    fromVarintBytes (toVarintBytes n ++ rest) = .ok (n, (toVarintBytes n).length) := by
  induction n using toVarintBytes.induct with
  | case1 n h =>
    rw [toVarintBytes, dif_pos h]
    simp [fromVarintBytes, h]
  | case2 n h ih =>
    rw [toVarintBytes, dif_neg h]
    have h2 : ¬ (n % 128 + 128 < 128) := by omega
    simp only [List.cons_append, fromVarintBytes, if_neg h2, List.append_eq, ih,
      List.length_cons]
    have h3 : n % 128 + 128 - 128 + 128 * (n / 128) = n := by omega
    rw [h3]

/-- Decoding any strict prefix of a varint encoding fails: every byte but the
last carries the continuation bit, so the decoder runs off the end. -/
theorem varint_take_fail (n k : Nat) (h : k < (toVarintBytes n).length) :
    fromVarintBytes ((toVarintBytes n).take k) = .error (.DeserializeError "truncated varint") := by
  induction n using toVarintBytes.induct generalizing k with
  | case1 n hn =>
    rw [toVarintBytes, dif_pos hn] at h ⊢
    simp at h
    subst h
    simp [fromVarintBytes]
  | case2 n hn ih =>
    rw [toVarintBytes, dif_neg hn] at h ⊢
    match k with
    | 0 => simp [fromVarintBytes]
    | k + 1 =>
      simp only [List.take_succ_cons, fromVarintBytes]
      have h2 : ¬ (n % 128 + 128 < 128) := by omega
      rw [if_neg h2, ih k (by simpa using h)]

/-- A successful varint decode consumes at least one byte and never more than
the buffer holds. -/
theorem fromVarintBytes_le (buf : List Nat) (v d : Nat)
    (h : fromVarintBytes buf = .ok (v, d)) : 1 ≤ d ∧ d ≤ buf.length := by
  induction buf generalizing v d with
  | nil => simp [fromVarintBytes] at h
  | cons b rest ih =>
    rw [fromVarintBytes] at h
    by_cases hb : b < 128
    · rw [if_pos hb] at h
      simp only [Except.ok.injEq, Prod.mk.injEq] at h
      simp only [List.length_cons]
      omega
    · rw [if_neg hb] at h
      match heq : fromVarintBytes rest with
      | .ok (v2, d2) =>
        rw [heq] at h
        simp at h
        have := ih v2 d2 heq
        rcases h with ⟨h1, h2⟩
        simp only [List.length_cons]
        omega
      | .error e => rw [heq] at h; simp at h

/-- Varint encodings are never empty. -/
theorem toVarintBytes_length_pos (n : Nat) : 0 < (toVarintBytes n).length := by
  rw [toVarintBytes]
  split <;> simp

/-! ## Fixed-size slice lemmas -/

/-- Reading `k` bytes from a buffer that starts with a `k`-byte block returns
exactly that block. -/
theorem array_from_slice_append (k : Nat) (data rest : List Nat)
    (h : data.length = k) : array_from_slice k (data ++ rest) = .ok data := by
  rw [array_from_slice, if_pos (by simp; omega)]
  subst h
  simp [List.take_left]

/-- Reading `k` bytes from a shorter buffer fails. -/
theorem array_from_slice_short (k : Nat) (buf : List Nat)
    (h : buf.length < k) : array_from_slice k buf = .error (.DeserializeError "array slice buffer too small") := by
  rw [array_from_slice, if_neg (by omega)]

/-- A successful fixed-size read returns exactly `k` bytes. -/
theorem array_from_slice_ok_length (k : Nat) (buf data : List Nat)
    (h : array_from_slice k buf = .ok data) : data.length = k := by
  rw [array_from_slice] at h
  split at h
  · simp only [Except.ok.injEq] at h
    subst h
    exact List.length_take_of_le (by assumption)
  · simp at h
/-! ## Peer-list codec lemmas -/

/-- Dropping exactly the leading block of an append. -/
theorem append_drop_eq (a b : List Nat) (k : Nat) (h : a.length = k) :
    (a ++ b).drop k = b := by
  subst h
  exact List.drop_left a b

/-- Decoding `ps.length` entries from their encoding plus any suffix recovers
the entries and consumes exactly the encoding. -/
theorem entries_decode_encode (ps rest : List Nat) :
    BootstrapPeers.entriesFromBytes ps.length (BootstrapPeers.entriesToBytes ps ++ rest)
      = .ok (ps, (BootstrapPeers.entriesToBytes ps).length) := by
  induction ps generalizing rest with
  | nil => simp [BootstrapPeers.entriesToBytes, BootstrapPeers.entriesFromBytes]
  | cons p ps ih =>
    simp only [List.length_cons, BootstrapPeers.entriesToBytes, List.append_assoc,
      BootstrapPeers.entriesFromBytes, varint_decode_encode]
    rw [append_drop_eq _ _ _ rfl, ih]
    simp [List.length_append]

/-- Decoding a strict prefix of an entries encoding fails. -/
theorem entries_take_fail (ps : List Nat) (k : Nat)
    (h : k < (BootstrapPeers.entriesToBytes ps).length) :
    BootstrapPeers.entriesFromBytes ps.length ((BootstrapPeers.entriesToBytes ps).take k)
      = .error (.DeserializeError "truncated varint") := by
  induction ps generalizing k with
  | nil => simp [BootstrapPeers.entriesToBytes] at h
  | cons p ps ih =>
    simp only [BootstrapPeers.entriesToBytes, List.length_append] at h
    by_cases hk : k < (toVarintBytes p).length
    · have htake : (BootstrapPeers.entriesToBytes (p :: ps)).take k
          = (toVarintBytes p).take k := by
        simp only [BootstrapPeers.entriesToBytes]
        rw [List.take_append_eq_append_take]
        have : k - (toVarintBytes p).length = 0 := by omega
        simp [this]
      rw [htake]
      simp only [List.length_cons, BootstrapPeers.entriesFromBytes,
        varint_take_fail p k hk]
    · have htake : (BootstrapPeers.entriesToBytes (p :: ps)).take k
          = toVarintBytes p ++ (BootstrapPeers.entriesToBytes ps).take (k - (toVarintBytes p).length) := by
        simp only [BootstrapPeers.entriesToBytes]
        rw [List.take_append_eq_append_take]
        have : (toVarintBytes p).take k = toVarintBytes p := List.take_of_length_le (by omega)
        rw [this]
      rw [htake]
      simp only [List.length_cons, BootstrapPeers.entriesFromBytes, varint_decode_encode]
      rw [append_drop_eq _ _ _ rfl, ih _ (by omega)]

/-- A successful entries decode never consumes more than the buffer holds. -/
theorem entries_consumed_le (n : Nat) (buf ps : List Nat) (d : Nat)
    (h : BootstrapPeers.entriesFromBytes n buf = .ok (ps, d)) : d ≤ buf.length := by
  induction n generalizing buf ps d with
  | zero =>
    simp only [BootstrapPeers.entriesFromBytes, Except.ok.injEq, Prod.mk.injEq] at h
    omega
  | succ n ih =>
    rw [BootstrapPeers.entriesFromBytes] at h
    split at h
    · simp at h
    · rename_i p d1 heq
      split at h
      · simp at h
      · rename_i ps2 d2 heq2
        simp only [Except.ok.injEq, Prod.mk.injEq] at h
        have h1 := fromVarintBytes_le buf p d1 heq
        have h2 := ih (buf.drop d1) ps2 d2 heq2
        rw [List.length_drop] at h2
        omega

/-- Round trip for the peer-list codec, with any suffix after the encoding. -/
theorem peers_decode_encode (ps rest : List Nat) (context : SerializationContext)
    (h : ps.length ≤ context.max_peer_list_length) :
    BootstrapPeers.from_bytes_compact
        ((toVarintBytes ps.length ++ BootstrapPeers.entriesToBytes ps) ++ rest) context
      = .ok (ps, (toVarintBytes ps.length ++ BootstrapPeers.entriesToBytes ps).length) := by
  simp only [BootstrapPeers.from_bytes_compact, List.append_assoc, varint_decode_encode,
    if_pos h]
  rw [append_drop_eq _ _ _ rfl, entries_decode_encode]
  simp [List.length_append]

/-- Decoding a strict prefix of a peer-list encoding fails. -/
theorem peers_take_fail (ps : List Nat) (context : SerializationContext) (k : Nat)
    (h : ps.length ≤ context.max_peer_list_length)
    (hk : k < (toVarintBytes ps.length ++ BootstrapPeers.entriesToBytes ps).length) :
    BootstrapPeers.from_bytes_compact
        ((toVarintBytes ps.length ++ BootstrapPeers.entriesToBytes ps).take k) context
      = .error (.DeserializeError "truncated varint") := by
  rw [List.length_append] at hk
  by_cases hsmall : k < (toVarintBytes ps.length).length
  · have htake : (toVarintBytes ps.length ++ BootstrapPeers.entriesToBytes ps).take k
        = (toVarintBytes ps.length).take k := by
      rw [List.take_append_eq_append_take]
      have : k - (toVarintBytes ps.length).length = 0 := by omega
      simp [this]
    rw [htake]
    simp only [BootstrapPeers.from_bytes_compact, varint_take_fail _ k hsmall]
  · have htake : (toVarintBytes ps.length ++ BootstrapPeers.entriesToBytes ps).take k
        = toVarintBytes ps.length
            ++ (BootstrapPeers.entriesToBytes ps).take (k - (toVarintBytes ps.length).length) := by
      rw [List.take_append_eq_append_take]
      have : (toVarintBytes ps.length).take k = toVarintBytes ps.length :=
        List.take_of_length_le (by omega)
      rw [this]
    rw [htake]
    simp only [BootstrapPeers.from_bytes_compact, varint_decode_encode, if_pos h]
    rw [append_drop_eq _ _ _ rfl, entries_take_fail _ _ (by omega)]

/-- A successful peer-list decode never consumes more than the buffer holds. -/
theorem peers_consumed_le (buf : List Nat) (context : SerializationContext)
    (ps : List Nat) (c : Nat)
    (h : BootstrapPeers.from_bytes_compact buf context = .ok (ps, c)) : c ≤ buf.length := by
  rw [BootstrapPeers.from_bytes_compact] at h
  split at h
  · simp at h
  · rename_i n d heq
    split at h
    · split at h
      · simp at h
      · rename_i hlim ps2 d2 heq2
        simp only [Except.ok.injEq, Prod.mk.injEq] at h
        have h1 := fromVarintBytes_le buf n d heq
        have h2 := entries_consumed_le n (buf.drop d) ps2 d2 heq2
        rw [List.length_drop] at h2
        omega
    · simp at h

/-! ## Graph codec lemmas -/

/-- Round trip for the graph-snapshot codec, with any suffix after the
encoding. -/
theorem graph_decode_encode (g : BootsrapableGraph) (rest : List Nat)
    (context : SerializationContext)
    (h : g.bytes.length ≤ context.max_bootstrap_message_size) :
    BootsrapableGraph.from_bytes_compact
        ((toVarintBytes g.bytes.length ++ g.bytes) ++ rest) context
      = .ok (g, (toVarintBytes g.bytes.length ++ g.bytes).length) := by
  simp only [BootsrapableGraph.from_bytes_compact, List.append_assoc, varint_decode_encode,
    if_pos h]
  rw [append_drop_eq _ _ _ rfl, array_from_slice_append _ _ _ rfl]
  simp [List.length_append]

/-- Decoding a strict prefix of a graph-snapshot encoding fails. -/
theorem graph_take_fail (g : BootsrapableGraph) (context : SerializationContext) (k : Nat)
    (h : g.bytes.length ≤ context.max_bootstrap_message_size)
    (hk : k < (toVarintBytes g.bytes.length ++ g.bytes).length) :
    ∃ e, BootsrapableGraph.from_bytes_compact
        ((toVarintBytes g.bytes.length ++ g.bytes).take k) context = .error e := by
  rw [List.length_append] at hk
  by_cases hsmall : k < (toVarintBytes g.bytes.length).length
  · have htake : (toVarintBytes g.bytes.length ++ g.bytes).take k
        = (toVarintBytes g.bytes.length).take k := by
      rw [List.take_append_eq_append_take]
      have : k - (toVarintBytes g.bytes.length).length = 0 := by omega
      simp [this]
    rw [htake]
    refine ⟨ModelsError.DeserializeError "truncated varint", ?_⟩
    simp only [BootsrapableGraph.from_bytes_compact, varint_take_fail _ k hsmall]
  · have htake : (toVarintBytes g.bytes.length ++ g.bytes).take k
        = toVarintBytes g.bytes.length ++ g.bytes.take (k - (toVarintBytes g.bytes.length).length) := by
      rw [List.take_append_eq_append_take]
      have : (toVarintBytes g.bytes.length).take k = toVarintBytes g.bytes.length :=
        List.take_of_length_le (by omega)
      rw [this]
    rw [htake]
    refine ⟨ModelsError.DeserializeError "array slice buffer too small", ?_⟩
    simp only [BootsrapableGraph.from_bytes_compact, varint_decode_encode, if_pos h]
    rw [append_drop_eq _ _ _ rfl]
    rw [array_from_slice_short _ _ (by rw [List.length_take]; omega)]

/-- A successful graph decode never consumes more than the buffer holds. -/
theorem graph_consumed_le (buf : List Nat) (context : SerializationContext)
    (g : BootsrapableGraph) (c : Nat)
    (h : BootsrapableGraph.from_bytes_compact buf context = .ok (g, c)) : c ≤ buf.length := by
  rw [BootsrapableGraph.from_bytes_compact] at h
  split at h
  · simp at h
  · rename_i n d heq
    split at h
    · split at h
      · simp at h
      · rename_i hlim payload heq2
        simp only [Except.ok.injEq, Prod.mk.injEq] at h
        have h1 := fromVarintBytes_le buf n d heq
        have h2 : n ≤ (buf.drop d).length := by
          rw [array_from_slice] at heq2
          split at heq2
          · assumption
          · simp at heq2
        rw [List.length_drop] at h2
        omega
    · simp at h

/-! ## Tag and dispatch helper lemmas -/

/-- Values below 128 encode as a single varint byte. -/
theorem toVarint_small (n : Nat) (h : n < 128) : toVarintBytes n = [n] := by
  rw [toVarintBytes, dif_pos h]

/-- Decoding a buffer that starts with the one-byte varint of a small tag. -/
theorem varint_tag_decode (tag : Nat) (h : tag < 128) (rest : List Nat) :
    fromVarintBytes (toVarintBytes tag ++ rest) = .ok (tag, 1) := by
  rw [varint_decode_encode, toVarint_small tag h]
  rfl

/-- Decoding a varint encoding with nothing after it. -/
theorem varint_decode_encode_nil (n : Nat) :
    fromVarintBytes (toVarintBytes n) = .ok (n, (toVarintBytes n).length) := by
  simpa using varint_decode_encode n []

/-- Dropping the one-byte tag. -/
theorem tag_drop_one (tag : Nat) (h : tag < 128) (rest : List Nat) :
    (toVarintBytes tag ++ rest).drop 1 = rest := by
  rw [toVarint_small tag h]
  rfl

/-- Dropping the one-byte tag and the fixed-size signature block. -/
theorem tag_sig_drop (tag : Nat) (h : tag < 128) (sig : Signature) (payload : List Nat)
    (hs : sig.bytes.length = SIGNATURE_SIZE_BYTES) :
    (toVarintBytes tag ++ (sig.bytes ++ payload)).drop (1 + SIGNATURE_SIZE_BYTES) = payload := by
  rw [toVarint_small tag h]
  rw [show (tag :: []) ++ (sig.bytes ++ payload) = (tag :: sig.bytes) ++ payload by simp]
  exact append_drop_eq _ _ _ (by simp [hs]; omega)

theorem try_from_tag_zero : MessageTypeId.try_from 0 = .ok .BootstrapInitiation := rfl

theorem try_from_tag_one : MessageTypeId.try_from 1 = .ok .BootstrapTime := rfl

theorem try_from_tag_two : MessageTypeId.try_from 2 = .ok .Peers := rfl

theorem try_from_tag_three : MessageTypeId.try_from 3 = .ok .ConsensusState := rfl

/-- Every integer outside the registry is rejected with the distinct error. -/
theorem try_from_tag_big (n : Nat) (h : 4 ≤ n) :
    MessageTypeId.try_from n = .error (.DeserializeError "invalid message type ID") := by
  match n, h with
  | n + 4, _ => rfl

/-- Reading the whole buffer as a fixed-size block. -/
theorem array_from_slice_all (buf : List Nat) : array_from_slice buf.length buf = .ok buf := by
  rw [array_from_slice, if_pos (le_refl _)]
  simp

/-- Peer-list round trip with nothing after the encoding. -/
theorem peers_decode_encode_nil (ps : List Nat) (context : SerializationContext)
    (h : ps.length ≤ context.max_peer_list_length) :
    BootstrapPeers.from_bytes_compact
        (toVarintBytes ps.length ++ BootstrapPeers.entriesToBytes ps) context
      = .ok (ps, (toVarintBytes ps.length ++ BootstrapPeers.entriesToBytes ps).length) := by
  simpa using peers_decode_encode ps [] context h

/-- Graph round trip with nothing after the encoding. -/
theorem graph_decode_encode_nil (g : BootsrapableGraph) (context : SerializationContext)
    (h : g.bytes.length ≤ context.max_bootstrap_message_size) :
    BootsrapableGraph.from_bytes_compact
        (toVarintBytes g.bytes.length ++ g.bytes) context
      = .ok (g, (toVarintBytes g.bytes.length ++ g.bytes).length) := by
  simpa using graph_decode_encode g [] context h

/-! ## Claim theorems -/

/-- C1: for every constructible `BootstrapMessage` and every
`SerializationContext` whose limits the message does not exceed, decoding the
encoding with the same context succeeds and returns the same message together
with a consumed-byte count equal to the encoding's length. -/
theorem bootstrap_round_trip (m : BootstrapMessage) (context : SerializationContext)
    (hwf : m.wf) (hlim : m.withinLimits context) :
    ∃ bytes, m.to_bytes_compact context = .ok bytes ∧
      BootstrapMessage.from_bytes_compact bytes context = .ok (m, bytes.length) := by
  cases m with
  | BootstrapInitiation rb =>
    obtain ⟨hlen, -⟩ := hwf
    refine ⟨toVarintBytes 0 ++ rb, rfl, ?_⟩
    simp only [BootstrapMessage.from_bytes_compact, varint_tag_decode 0 (by omega),
      try_from_tag_zero, tag_drop_one 0 (by omega)]
    rw [show BOOTSTRAP_RANDOMNES_SIZE_BYTES = rb.length from hlen.symm, array_from_slice_all]
    simp [toVarint_small 0 (by omega), hlen, BOOTSTRAP_RANDOMNES_SIZE_BYTES]
  | BootstrapTime t sig =>
    obtain ⟨⟨hslen, -⟩, -⟩ := hwf
    refine ⟨toVarintBytes 1 ++ (sig.to_bytes ++ toVarintBytes t), ?_, ?_⟩
    · simp [BootstrapMessage.to_bytes_compact, UTime.to_bytes_compact, MessageTypeId.toU32]
    · simp only [BootstrapMessage.from_bytes_compact, varint_tag_decode 1 (by omega),
        try_from_tag_one, Signature.to_bytes, tag_drop_one 1 (by omega),
        array_from_slice_append SIGNATURE_SIZE_BYTES sig.bytes (toVarintBytes t) hslen,
        Signature.from_bytes, if_pos hslen, tag_sig_drop 1 (by omega) sig (toVarintBytes t) hslen,
        UTime.from_bytes_compact, varint_decode_encode_nil]
      simp [toVarint_small 1 (by omega), List.length_append, hslen]
      omega
  | BootstrapPeers ps sig =>
    obtain ⟨⟨hslen, -⟩, -⟩ := hwf
    have hplim : ps.length ≤ context.max_peer_list_length := hlim
    refine ⟨toVarintBytes 2 ++ (sig.to_bytes ++ (toVarintBytes ps.length ++ BootstrapPeers.entriesToBytes ps)), ?_, ?_⟩
    · simp [BootstrapMessage.to_bytes_compact, BootstrapPeers.to_bytes_compact, if_pos hplim,
        MessageTypeId.toU32]
    · simp only [BootstrapMessage.from_bytes_compact, varint_tag_decode 2 (by omega),
        try_from_tag_two, Signature.to_bytes, tag_drop_one 2 (by omega),
        array_from_slice_append SIGNATURE_SIZE_BYTES sig.bytes _ hslen,
        Signature.from_bytes, if_pos hslen, tag_sig_drop 2 (by omega) sig _ hslen,
        peers_decode_encode_nil ps context hplim]
      simp [toVarint_small 2 (by omega), List.length_append, hslen]
      omega
  | ConsensusState g sig =>
    obtain ⟨⟨hslen, -⟩, -⟩ := hwf
    have hglim : g.bytes.length ≤ context.max_bootstrap_message_size := hlim
    refine ⟨toVarintBytes 3 ++ (sig.to_bytes ++ (toVarintBytes g.bytes.length ++ g.bytes)), ?_, ?_⟩
    · simp [BootstrapMessage.to_bytes_compact, BootsrapableGraph.to_bytes_compact, if_pos hglim,
        MessageTypeId.toU32]
    · simp only [BootstrapMessage.from_bytes_compact, varint_tag_decode 3 (by omega),
        try_from_tag_three, Signature.to_bytes, tag_drop_one 3 (by omega),
        array_from_slice_append SIGNATURE_SIZE_BYTES sig.bytes _ hslen,
        Signature.from_bytes, if_pos hslen, tag_sig_drop 3 (by omega) sig _ hslen,
        graph_decode_encode_nil g context hglim]
      simp [toVarint_small 3 (by omega), List.length_append, hslen]
      omega

/-! ## Truncation helper lemmas -/

/-- Decoding an empty buffer fails at the tag varint. -/
theorem from_bytes_nil (context : SerializationContext) :
    BootstrapMessage.from_bytes_compact [] context
      = .error (.DeserializeError "truncated varint") := rfl

/-- Taking at least one byte of a tag-led buffer keeps the whole tag. -/
theorem take_one_tag (tag : Nat) (h : tag < 128) (rest : List Nat) (k : Nat) (hk : 1 ≤ k) :
    (toVarintBytes tag ++ rest).take k = toVarintBytes tag ++ rest.take (k - 1) := by
  rw [toVarint_small tag h, List.take_append_eq_append_take]
  rw [List.take_of_length_le (l := [tag]) (by simp; omega)]
  simp

/-- A fixed-size signature read from fewer bytes than the signature size fails. -/
theorem sig_take_short (j : Nat) (buf : List Nat) (hj : j < SIGNATURE_SIZE_BYTES) :
    array_from_slice SIGNATURE_SIZE_BYTES (buf.take j)
      = .error (.DeserializeError "array slice buffer too small") :=
  array_from_slice_short _ _ (by rw [List.length_take]; omega)

/-- Taking at least the signature size of a signature-led buffer keeps the
whole signature block. -/
theorem sig_take_split (sig : Signature) (hs : sig.bytes.length = SIGNATURE_SIZE_BYTES)
    (payload : List Nat) (j : Nat) (hj : SIGNATURE_SIZE_BYTES ≤ j) :
    (sig.bytes ++ payload).take j = sig.bytes ++ payload.take (j - SIGNATURE_SIZE_BYTES) := by
  rw [List.take_append_eq_append_take, List.take_of_length_le (by omega), hs]

/-- C2: decoding any strict prefix of a valid encoded message yields an error
(the decoder is a total function, so no panic or out-of-bounds read can
occur). -/
theorem bootstrap_truncation_safe (m : BootstrapMessage) (context : SerializationContext)
    (bytes : List Nat) (hwf : m.wf) (henc : m.to_bytes_compact context = .ok bytes)
    (k : Nat) (hk : k < bytes.length) :
    ∃ e, BootstrapMessage.from_bytes_compact (bytes.take k) context = .error e := by
  cases m with
  | BootstrapInitiation rb =>
    obtain ⟨hlen, -⟩ := hwf
    simp only [BootstrapMessage.to_bytes_compact, Except.ok.injEq] at henc
    subst henc
    simp only [MessageTypeId.toU32] at hk ⊢
    rcases Nat.eq_zero_or_pos k with hk0 | hk1
    · subst hk0
      refine ⟨ModelsError.DeserializeError "truncated varint", ?_⟩
      simp [from_bytes_nil]
    · have hkk : k < 1 + 32 := by
        simpa [List.length_append, toVarint_small 0 (by omega), hlen,
          BOOTSTRAP_RANDOMNES_SIZE_BYTES] using hk
      rw [take_one_tag 0 (by omega) _ k hk1]
      refine ⟨ModelsError.DeserializeError "array slice buffer too small", ?_⟩
      simp only [BootstrapMessage.from_bytes_compact, varint_tag_decode 0 (by omega),
        try_from_tag_zero, tag_drop_one 0 (by omega)]
      rw [array_from_slice_short _ _
        (by simp only [List.length_take, BOOTSTRAP_RANDOMNES_SIZE_BYTES]; omega)]
  | BootstrapTime t sig =>
    obtain ⟨⟨hslen, -⟩, -⟩ := hwf
    simp only [BootstrapMessage.to_bytes_compact, UTime.to_bytes_compact, Signature.to_bytes,
      Except.ok.injEq, List.append_assoc] at henc
    subst henc
    simp only [MessageTypeId.toU32] at hk ⊢
    have hkk : k < 1 + (SIGNATURE_SIZE_BYTES + (toVarintBytes t).length) := by
      simp [List.length_append, toVarint_small 1 (by omega), hslen] at hk
      omega
    rcases Nat.eq_zero_or_pos k with hk0 | hk1
    · subst hk0
      refine ⟨ModelsError.DeserializeError "truncated varint", ?_⟩
      simp [from_bytes_nil]
    rw [take_one_tag 1 (by omega) _ k hk1]
    by_cases hsig : k - 1 < SIGNATURE_SIZE_BYTES
    · refine ⟨ModelsError.DeserializeError "array slice buffer too small", ?_⟩
      simp only [BootstrapMessage.from_bytes_compact, varint_tag_decode 1 (by omega),
        try_from_tag_one, tag_drop_one 1 (by omega)]
      rw [sig_take_short (k - 1) _ hsig]
    · rw [sig_take_split sig hslen _ (k - 1) (by omega)]
      refine ⟨ModelsError.DeserializeError "truncated varint", ?_⟩
      simp only [BootstrapMessage.from_bytes_compact, varint_tag_decode 1 (by omega),
        try_from_tag_one, tag_drop_one 1 (by omega),
        array_from_slice_append SIGNATURE_SIZE_BYTES sig.bytes _ hslen,
        Signature.from_bytes, if_pos hslen, tag_sig_drop 1 (by omega) sig _ hslen,
        UTime.from_bytes_compact]
      rw [varint_take_fail t (k - 1 - SIGNATURE_SIZE_BYTES)
        (by simp only [SIGNATURE_SIZE_BYTES] at hkk hsig ⊢; omega)]
  | BootstrapPeers ps sig =>
    obtain ⟨⟨hslen, -⟩, -⟩ := hwf
    rw [BootstrapMessage.to_bytes_compact] at henc
    split at henc
    · simp at henc
    · rename_i pb heq
      rw [BootstrapPeers.to_bytes_compact] at heq
      split at heq
      · rename_i hplim
        simp only [Except.ok.injEq] at heq
        subst heq
        simp only [Signature.to_bytes, Except.ok.injEq, List.append_assoc] at henc
        subst henc
        simp only [MessageTypeId.toU32] at hk ⊢
        have hkk : k < 1 + (SIGNATURE_SIZE_BYTES
            + ((toVarintBytes ps.length).length + (BootstrapPeers.entriesToBytes ps).length)) := by
          simp [List.length_append, toVarint_small 2 (by omega), hslen] at hk
          omega
        rcases Nat.eq_zero_or_pos k with hk0 | hk1
        · subst hk0
          refine ⟨ModelsError.DeserializeError "truncated varint", ?_⟩
          simp [from_bytes_nil]
        rw [take_one_tag 2 (by omega) _ k hk1]
        by_cases hsig : k - 1 < SIGNATURE_SIZE_BYTES
        · refine ⟨ModelsError.DeserializeError "array slice buffer too small", ?_⟩
          simp only [BootstrapMessage.from_bytes_compact, varint_tag_decode 2 (by omega),
            try_from_tag_two, tag_drop_one 2 (by omega)]
          rw [sig_take_short (k - 1) _ hsig]
        · rw [sig_take_split sig hslen _ (k - 1) (by omega)]
          refine ⟨ModelsError.DeserializeError "truncated varint", ?_⟩
          simp only [BootstrapMessage.from_bytes_compact, varint_tag_decode 2 (by omega),
            try_from_tag_two, tag_drop_one 2 (by omega),
            array_from_slice_append SIGNATURE_SIZE_BYTES sig.bytes _ hslen,
            Signature.from_bytes, if_pos hslen, tag_sig_drop 2 (by omega) sig _ hslen]
          rw [peers_take_fail ps context (k - 1 - SIGNATURE_SIZE_BYTES) hplim
            (by simp only [SIGNATURE_SIZE_BYTES, List.length_append] at hkk hsig ⊢; omega)]
      · simp at heq
  | ConsensusState g sig =>
    obtain ⟨⟨hslen, -⟩, -⟩ := hwf
    rw [BootstrapMessage.to_bytes_compact] at henc
    split at henc
    · simp at henc
    · rename_i gb heq
      rw [BootsrapableGraph.to_bytes_compact] at heq
      split at heq
      · rename_i hglim
        simp only [Except.ok.injEq] at heq
        subst heq
        simp only [Signature.to_bytes, Except.ok.injEq, List.append_assoc] at henc
        subst henc
        simp only [MessageTypeId.toU32] at hk ⊢
        have hkk : k < 1 + (SIGNATURE_SIZE_BYTES
            + ((toVarintBytes g.bytes.length).length + g.bytes.length)) := by
          simp [List.length_append, toVarint_small 3 (by omega), hslen] at hk
          omega
        rcases Nat.eq_zero_or_pos k with hk0 | hk1
        · subst hk0
          refine ⟨ModelsError.DeserializeError "truncated varint", ?_⟩
          simp [from_bytes_nil]
        rw [take_one_tag 3 (by omega) _ k hk1]
        by_cases hsig : k - 1 < SIGNATURE_SIZE_BYTES
        · refine ⟨ModelsError.DeserializeError "array slice buffer too small", ?_⟩
          simp only [BootstrapMessage.from_bytes_compact, varint_tag_decode 3 (by omega),
            try_from_tag_three, tag_drop_one 3 (by omega)]
          rw [sig_take_short (k - 1) _ hsig]
        · rw [sig_take_split sig hslen _ (k - 1) (by omega)]
          obtain ⟨e, he⟩ := graph_take_fail g context (k - 1 - SIGNATURE_SIZE_BYTES) hglim
            (by simp only [SIGNATURE_SIZE_BYTES, List.length_append] at hkk hsig ⊢; omega)
          refine ⟨e, ?_⟩
          simp only [BootstrapMessage.from_bytes_compact, varint_tag_decode 3 (by omega),
            try_from_tag_three, tag_drop_one 3 (by omega),
            array_from_slice_append SIGNATURE_SIZE_BYTES sig.bytes _ hslen,
            Signature.from_bytes, if_pos hslen, tag_sig_drop 3 (by omega) sig _ hslen]
          rw [he]
      · simp at heq

/-- Every wire tag of the registry is below 128, so its varint is one byte. -/
theorem type_id_toU32_lt (id : MessageTypeId) : id.toU32 < 128 := by
  cases id <;> simp [MessageTypeId.toU32]

/-- Every successful encoding starts with the variant's tag varint. -/
theorem to_bytes_shape (m : BootstrapMessage) (context : SerializationContext)
    (bytes : List Nat) (henc : m.to_bytes_compact context = .ok bytes) :
    ∃ payload, bytes = toVarintBytes m.type_id.toU32 ++ payload := by
  cases m with
  | BootstrapInitiation rb =>
    simp only [BootstrapMessage.to_bytes_compact, Except.ok.injEq] at henc
    exact ⟨rb, henc.symm⟩
  | BootstrapTime t sig =>
    simp only [BootstrapMessage.to_bytes_compact, UTime.to_bytes_compact,
      Except.ok.injEq, List.append_assoc] at henc
    exact ⟨sig.to_bytes ++ toVarintBytes t, henc.symm⟩
  | BootstrapPeers ps sig =>
    rw [BootstrapMessage.to_bytes_compact] at henc
    split at henc
    · simp at henc
    · rename_i pb heq
      simp only [Except.ok.injEq, List.append_assoc] at henc
      exact ⟨sig.to_bytes ++ pb, henc.symm⟩
  | ConsensusState g sig =>
    rw [BootstrapMessage.to_bytes_compact] at henc
    split at henc
    · simp at henc
    · rename_i gb heq
      simp only [Except.ok.injEq, List.append_assoc] at henc
      exact ⟨sig.to_bytes ++ gb, henc.symm⟩

/-- C3: whenever the leading varint of a buffer decodes to an integer outside
{0,1,2,3}, the whole decode fails with the distinct "invalid message type ID"
error — it never falls back to a default variant. -/
theorem bootstrap_unknown_tag_rejected (buffer : List Nat)
    (context : SerializationContext) (n d : Nat)
    (hdec : fromVarintBytes buffer = .ok (n, d))
    (hn : ¬(n = 0 ∨ n = 1 ∨ n = 2 ∨ n = 3)) :
    BootstrapMessage.from_bytes_compact buffer context
      = .error (.DeserializeError "invalid message type ID") := by
  simp only [BootstrapMessage.from_bytes_compact, hdec, try_from_tag_big n (by omega)]

theorem bootstrap_unknown_tag_rejected_witness :
    BootstrapMessage.from_bytes_compact [5] testContext
      = .error (.DeserializeError "invalid message type ID") :=
  bootstrap_unknown_tag_rejected [5] testContext 5 1 rfl (by decide)

/-- C4: every encoding writes the tag varint first; the signed variants put
the signature's fixed-size raw bytes immediately after the tag and the
payload after the signature; the Initiation variant has no signature and its
32-byte random payload directly follows the tag. -/
theorem bootstrap_encode_layout (context : SerializationContext) :
    (∀ rb, (BootstrapMessage.BootstrapInitiation rb).to_bytes_compact context
        = .ok (toVarintBytes 0 ++ rb)) ∧
    (∀ t sig tb, UTime.to_bytes_compact t context = .ok tb →
      (BootstrapMessage.BootstrapTime t sig).to_bytes_compact context
        = .ok (toVarintBytes 1 ++ (sig.to_bytes ++ tb))) ∧
    (∀ ps sig pb, BootstrapPeers.to_bytes_compact ps context = .ok pb →
      (BootstrapMessage.BootstrapPeers ps sig).to_bytes_compact context
        = .ok (toVarintBytes 2 ++ (sig.to_bytes ++ pb))) ∧
    (∀ g sig gb, BootsrapableGraph.to_bytes_compact g context = .ok gb →
      (BootstrapMessage.ConsensusState g sig).to_bytes_compact context
        = .ok (toVarintBytes 3 ++ (sig.to_bytes ++ gb))) ∧
    (∀ sig : Signature, sig.wf → sig.to_bytes.length = SIGNATURE_SIZE_BYTES) ∧
    (∀ rb, (BootstrapMessage.BootstrapInitiation rb).wf →
      rb.length = BOOTSTRAP_RANDOMNES_SIZE_BYTES) := by
  refine ⟨?_, ?_, ?_, ?_, ?_, ?_⟩
  · intro rb
    simp [BootstrapMessage.to_bytes_compact, MessageTypeId.toU32]
  · intro t sig tb h
    simp [BootstrapMessage.to_bytes_compact, h, MessageTypeId.toU32, List.append_assoc]
  · intro ps sig pb h
    simp [BootstrapMessage.to_bytes_compact, h, MessageTypeId.toU32, List.append_assoc]
  · intro g sig gb h
    simp [BootstrapMessage.to_bytes_compact, h, MessageTypeId.toU32, List.append_assoc]
  · intro sig hs
    exact hs.1
  · intro rb hr
    exact hr.1

theorem bootstrap_encode_layout_witness :
    (BootstrapMessage.BootstrapTime 5 ⟨List.replicate 64 9⟩).to_bytes_compact testContext
      = .ok (toVarintBytes 1 ++ ((Signature.mk (List.replicate 64 9)).to_bytes
          ++ toVarintBytes 5)) :=
  (bootstrap_encode_layout testContext).2.1 5 ⟨List.replicate 64 9⟩ (toVarintBytes 5) rfl

/-- C5: the type-tag mapping is exactly Initiation=0, Time=1, Peers=2,
ConsensusState=3; encoding writes exactly that integer as the leading tag,
each registry integer converts back to exactly that variant kind, and every
other integer is a decode failure, never a silent default. -/
theorem message_type_id_mapping :
    MessageTypeId.BootstrapInitiation.toU32 = 0 ∧
    MessageTypeId.BootstrapTime.toU32 = 1 ∧
    MessageTypeId.Peers.toU32 = 2 ∧
    MessageTypeId.ConsensusState.toU32 = 3 ∧
    (∀ id : MessageTypeId, MessageTypeId.try_from id.toU32 = .ok id) ∧
    (∀ m : BootstrapMessage, ∀ context bytes, m.to_bytes_compact context = .ok bytes →
      fromVarintBytes bytes = .ok (m.type_id.toU32, 1)) ∧
    (∀ n : Nat, ¬(n = 0 ∨ n = 1 ∨ n = 2 ∨ n = 3) →
      MessageTypeId.try_from n = .error (.DeserializeError "invalid message type ID")) := by
  refine ⟨rfl, rfl, rfl, rfl, ?_, ?_, ?_⟩
  · intro id
    cases id <;> rfl
  · intro m context bytes henc
    obtain ⟨payload, hshape⟩ := to_bytes_shape m context bytes henc
    subst hshape
    exact varint_tag_decode _ (type_id_toU32_lt m.type_id) payload
  · intro n hn
    exact try_from_tag_big n (by omega)

theorem message_type_id_mapping_witness :
    fromVarintBytes
        (toVarintBytes 0 ++ List.replicate 32 2) = .ok (0, 1) :=
  message_type_id_mapping.2.2.2.2.2.1
    (BootstrapMessage.BootstrapInitiation (List.replicate 32 2)) testContext
    (toVarintBytes 0 ++ List.replicate 32 2) rfl

/-- C6: any nested field-codec failure (random-bytes read, signature read,
signature parse input, timestamp, peer list, or graph snapshot) aborts the
whole decode with that very error; a message is returned only when every
nested read succeeded, so no partially constructed message is ever
returned. -/
theorem bootstrap_nested_error_propagation (buffer : List Nat)
    (context : SerializationContext) (d : Nat) (e : ModelsError) :
    (fromVarintBytes buffer = .ok (0, d) →
      array_from_slice BOOTSTRAP_RANDOMNES_SIZE_BYTES (buffer.drop d) = .error e →
      BootstrapMessage.from_bytes_compact buffer context = .error e) ∧
    (∀ tag, tag = 1 ∨ tag = 2 ∨ tag = 3 → fromVarintBytes buffer = .ok (tag, d) →
      array_from_slice SIGNATURE_SIZE_BYTES (buffer.drop d) = .error e →
      BootstrapMessage.from_bytes_compact buffer context = .error e) ∧
    (fromVarintBytes buffer = .ok (1, d) → ∀ sb sig,
      array_from_slice SIGNATURE_SIZE_BYTES (buffer.drop d) = .ok sb →
      Signature.from_bytes sb = .ok sig →
      UTime.from_bytes_compact (buffer.drop (d + SIGNATURE_SIZE_BYTES)) context = .error e →
      BootstrapMessage.from_bytes_compact buffer context = .error e) ∧
    (fromVarintBytes buffer = .ok (2, d) → ∀ sb sig,
      array_from_slice SIGNATURE_SIZE_BYTES (buffer.drop d) = .ok sb →
      Signature.from_bytes sb = .ok sig →
      BootstrapPeers.from_bytes_compact (buffer.drop (d + SIGNATURE_SIZE_BYTES)) context
        = .error e →
      BootstrapMessage.from_bytes_compact buffer context = .error e) ∧
    (fromVarintBytes buffer = .ok (3, d) → ∀ sb sig,
      array_from_slice SIGNATURE_SIZE_BYTES (buffer.drop d) = .ok sb →
      Signature.from_bytes sb = .ok sig →
      BootsrapableGraph.from_bytes_compact (buffer.drop (d + SIGNATURE_SIZE_BYTES)) context
        = .error e →
      BootstrapMessage.from_bytes_compact buffer context = .error e) := by
  refine ⟨?_, ?_, ?_, ?_, ?_⟩
  · intro h1 h2
    simp only [BootstrapMessage.from_bytes_compact, h1, try_from_tag_zero, h2]
  · rintro tag (rfl | rfl | rfl) h1 h2 <;>
      simp only [BootstrapMessage.from_bytes_compact, h1, try_from_tag_one,
        try_from_tag_two, try_from_tag_three, h2]
  · intro h1 sb sig h2 h3 h4
    simp only [BootstrapMessage.from_bytes_compact, h1, try_from_tag_one, h2, h3, h4]
  · intro h1 sb sig h2 h3 h4
    simp only [BootstrapMessage.from_bytes_compact, h1, try_from_tag_two, h2, h3, h4]
  · intro h1 sb sig h2 h3 h4
    simp only [BootstrapMessage.from_bytes_compact, h1, try_from_tag_three, h2, h3, h4]

theorem bootstrap_nested_error_propagation_witness :
    BootstrapMessage.from_bytes_compact [1] testContext
      = .error (.DeserializeError "array slice buffer too small") :=
  (bootstrap_nested_error_propagation [1] testContext 1
      (.DeserializeError "array slice buffer too small")).2.1 1 (Or.inl rfl) rfl rfl

/-- C7: encoding is deterministic — two invocations on the same message and
the same context produce identical byte sequences. -/
theorem bootstrap_encode_deterministic (m1 m2 : BootstrapMessage)
    (c1 c2 : SerializationContext) (b1 b2 : List Nat) (hm : m1 = m2) (hc : c1 = c2)
    (h1 : m1.to_bytes_compact c1 = .ok b1) (h2 : m2.to_bytes_compact c2 = .ok b2) :
    b1 = b2 := by
  subst hm
  subst hc
  rw [h1] at h2
  simpa using h2

theorem bootstrap_encode_deterministic_witness :
    toVarintBytes 0 ++ List.replicate 32 3 = toVarintBytes 0 ++ List.replicate 32 3 :=
  bootstrap_encode_deterministic
    (BootstrapMessage.BootstrapInitiation (List.replicate 32 3))
    (BootstrapMessage.BootstrapInitiation (List.replicate 32 3))
    testContext testContext _ _ rfl rfl rfl rfl

/-- C8: encoding a BootstrapInitiation message can never fail, and the
resulting bytes are the same for any two contexts — the Initiation encoding
does not depend on the context at all. -/
theorem bootstrap_initiation_encode_total (rb : List Nat)
    (c1 c2 : SerializationContext) :
    (∃ bytes, (BootstrapMessage.BootstrapInitiation rb).to_bytes_compact c1 = .ok bytes) ∧
    (BootstrapMessage.BootstrapInitiation rb).to_bytes_compact c1
      = (BootstrapMessage.BootstrapInitiation rb).to_bytes_compact c2 :=
  ⟨⟨toVarintBytes 0 ++ rb, rfl⟩, rfl⟩

/-- C9: whenever decoding succeeds, the returned consumed-byte count is at
most the length of the input buffer. -/
theorem bootstrap_consumed_le_length (buffer : List Nat)
    (context : SerializationContext) (m : BootstrapMessage) (c : Nat)
    (h : BootstrapMessage.from_bytes_compact buffer context = .ok (m, c)) :
    c ≤ buffer.length := by
  rw [BootstrapMessage.from_bytes_compact] at h
  split at h
  · simp at h
  · rename_i n d heq
    have hd := fromVarintBytes_le buffer n d heq
    split at h
    · simp at h
    · split at h
      · simp at h
      · rename_i rb heq2
        simp only [Except.ok.injEq, Prod.mk.injEq] at h
        have h32 : BOOTSTRAP_RANDOMNES_SIZE_BYTES ≤ (buffer.drop d).length := by
          rw [array_from_slice] at heq2
          split at heq2
          · assumption
          · simp at heq2
        rw [List.length_drop] at h32
        omega
    · split at h
      · simp at h
      · rename_i sb heq2
        split at h
        · simp at h
        · split at h
          · simp at h
          · rename_i t dt heq4
            simp only [Except.ok.injEq, Prod.mk.injEq] at h
            have h64 : SIGNATURE_SIZE_BYTES ≤ (buffer.drop d).length := by
              rw [array_from_slice] at heq2
              split at heq2
              · assumption
              · simp at heq2
            have hdt := fromVarintBytes_le (buffer.drop (d + SIGNATURE_SIZE_BYTES)) t dt heq4
            rw [List.length_drop] at h64 hdt
            omega
    · split at h
      · simp at h
      · rename_i sb heq2
        split at h
        · simp at h
        · split at h
          · simp at h
          · rename_i ps dp heq4
            simp only [Except.ok.injEq, Prod.mk.injEq] at h
            have h64 : SIGNATURE_SIZE_BYTES ≤ (buffer.drop d).length := by
              rw [array_from_slice] at heq2
              split at heq2
              · assumption
              · simp at heq2
            have hdp := peers_consumed_le (buffer.drop (d + SIGNATURE_SIZE_BYTES)) context
              ps dp heq4
            rw [List.length_drop] at h64 hdp
            omega
    · split at h
      · simp at h
      · rename_i sb heq2
        split at h
        · simp at h
        · split at h
          · simp at h
          · rename_i g dg heq4
            simp only [Except.ok.injEq, Prod.mk.injEq] at h
            have h64 : SIGNATURE_SIZE_BYTES ≤ (buffer.drop d).length := by
              rw [array_from_slice] at heq2
              split at heq2
              · assumption
              · simp at heq2
            have hdg := graph_consumed_le (buffer.drop (d + SIGNATURE_SIZE_BYTES)) context
              g dg heq4
            rw [List.length_drop] at h64 hdg
            omega

theorem bootstrap_consumed_le_length_witness :
    (33 : Nat) ≤ ((0 : Nat) :: List.replicate 32 5).length :=
  bootstrap_consumed_le_length ((0 : Nat) :: List.replicate 32 5) testContext
    (BootstrapMessage.BootstrapInitiation (List.replicate 32 5)) 33 rfl

/-- C10: the encoding of a BootstrapInitiation message is exactly 33 bytes:
one varint byte holding tag 0, directly followed by the 32 raw random
bytes. -/
theorem bootstrap_initiation_encoding_length (rb : List Nat)
    (context : SerializationContext) (bytes : List Nat) (hlen : rb.length = 32)
    (henc : (BootstrapMessage.BootstrapInitiation rb).to_bytes_compact context = .ok bytes) :
    bytes = 0 :: rb ∧ bytes.length = 33 := by
  simp only [BootstrapMessage.to_bytes_compact, MessageTypeId.toU32, Except.ok.injEq] at henc
  subst henc
  rw [toVarint_small 0 (by omega)]
  simp [hlen]

theorem bootstrap_initiation_encoding_length_witness :
    toVarintBytes 0 ++ List.replicate 32 4 = 0 :: List.replicate 32 4 ∧
    (toVarintBytes 0 ++ List.replicate 32 4).length = 33 :=
  bootstrap_initiation_encoding_length (List.replicate 32 4) testContext
    (toVarintBytes 0 ++ List.replicate 32 4) (by decide) rfl

theorem bootstrap_round_trip_witness :
    ∃ bytes,
      (BootstrapMessage.BootstrapTime 5 ⟨List.replicate 64 9⟩).to_bytes_compact testContext
        = .ok bytes ∧
      BootstrapMessage.from_bytes_compact bytes testContext
        = .ok (BootstrapMessage.BootstrapTime 5 ⟨List.replicate 64 9⟩, bytes.length) :=
  bootstrap_round_trip _ testContext (by decide) (by decide)

theorem bootstrap_truncation_safe_witness :
    ∃ e, BootstrapMessage.from_bytes_compact
        ((toVarintBytes 0 ++ List.replicate 32 1).take 5) testContext = .error e :=
  bootstrap_truncation_safe (BootstrapMessage.BootstrapInitiation (List.replicate 32 1))
    testContext (toVarintBytes 0 ++ List.replicate 32 1) (by decide) rfl 5
    (by simp [toVarint_small 0 (by omega)])
